import Mathlib

set_option maxHeartbeats 1000000

/-!
Shallow embedding of the scoring/filtering core of `bot.py` (a Telegram bot
that scores uploaded spreadsheets of tender leads), together with theorems
settling the specification claims about it.

Conventions of the embedding:
* Python strings are Lean `String`; Python's `k in t` substring test is
  infix containment of the character lists.
* Python floats are modelled as `ℚ` (every literal appearing in the source
  and in the claims is exactly representable).
* `None`/NaN cells are `Cell.blank`; `pd.to_numeric(..., errors="coerce")`
  and `float(...)` with a `try/except` guard are modelled by an
  `Option ℚ`-valued parser.
-/

-- ========= definitions =========
/-- A spreadsheet cell as pandas sees it: a string, a number, or NaN. -/
inductive Cell where
  | str (s : String)
  | num (q : ℚ)
  | blank
deriving DecidableEq, Repr

/-- Model of Python `str.lower` for the alphabets appearing in the source's
configuration (ASCII Latin and Cyrillic, including `Ё`); other characters
are left unchanged. -/
def lowerChar (c : Char) : Char :=
  if 'A' ≤ c ∧ c ≤ 'Z' then Char.ofNat (c.toNat + 32)
  else if 'А' ≤ c ∧ c ≤ 'Я' then Char.ofNat (c.toNat + 32)
  else if c = 'Ё' then 'ё'
  else c

/-- Model of Python `str.lower` (see `lowerChar`). -/
def pyLower (s : String) : String := ⟨s.data.map lowerChar⟩

/-- Python's `needle in hay` substring test. -/
def hasSub (needle hay : String) : Bool := decide (needle.data <:+: hay.data)

/-- Python's `str.strip()`: drop leading and trailing whitespace. -/
def pyStrip (s : String) : String :=
  ⟨((s.data.dropWhile Char.isWhitespace).reverse.dropWhile Char.isWhitespace).reverse⟩

/-- Numeric value of a digit list, most significant first. -/
def digitsToNat (cs : List Char) : ℕ := cs.foldl (fun a c => 10 * a + (c.toNat - 48)) 0

/-- Model of Python `float(s)` / `pd.to_numeric` string parsing: optional
sign, decimal digits with an optional fractional part and an optional
decimal exponent, surrounded by optional whitespace.  Returns `none` when
the string does not parse (the source guards every use with `try/except`
or `errors="coerce"`). -/
def pyFloat (s : String) : Option ℚ :=
  let cs := ((s.data.dropWhile Char.isWhitespace).reverse.dropWhile Char.isWhitespace).reverse
  let (neg, cs) : Bool × List Char :=
    match cs with
    | '-' :: rest => (true, rest)
    | '+' :: rest => (false, rest)
    | _ => (false, cs)
  let (mant, expPart) : List Char × Option (List Char) :=
    match cs.splitOn 'e' with
    | [m] =>
      match cs.splitOn 'E' with
      | [m'] => (m', none)
      | [m', e'] => (m', some e')
      | _ => (m, some [])   -- more than one exponent marker: unparseable
    | [m, e] => (m, some e)
    | _ => (cs, some [])    -- more than one exponent marker: unparseable
  let readExp : Option (Bool × ℕ) :=
    match expPart with
    | none => some (false, 0)
    | some ec =>
      let (eneg, ec) : Bool × List Char :=
        match ec with
        | '-' :: rest => (true, rest)
        | '+' :: rest => (false, rest)
        | _ => (false, ec)
      if ec ≠ [] ∧ ec.all Char.isDigit then some (eneg, digitsToNat ec) else none
  let build (ip fp : List Char) : Option ℚ :=
    (readExp).map (fun e =>
      let mantNum : ℕ := digitsToNat (ip ++ fp)
      let num : ℤ := (if neg then -1 else 1) * (if e.1 then mantNum else mantNum * 10 ^ e.2)
      let den : ℕ := (if e.1 then 10 ^ e.2 else 1) * 10 ^ fp.length
      mkRat num den)
  match mant.splitOn '.' with
  | [ip] =>
    if ip ≠ [] ∧ ip.all Char.isDigit then build ip [] else none
  | [ip, fp] =>
    if (ip ≠ [] ∨ fp ≠ []) ∧ ip.all Char.isDigit ∧ fp.all Char.isDigit then build ip fp
    else none
  | _ => none

/-- `pd.to_numeric(cell, errors="coerce")`, and likewise `float(cell)` under
the source's `try/except` guard: numbers pass through, strings are parsed,
NaN stays non-numeric. -/
def toNumeric : Cell → Option ℚ
  | .str s => pyFloat s
  | .num q => some q
  | .blank => none

/-- Model of Python `str(value)` on a cell.  For NaN pandas renders `"nan"`;
for a whole-valued float Python renders the trailing `".0"`.  (No claim
depends on the rendering of non-integral floats; they are rendered as the
rational `num/den`, which is documented as an approximation of Python's
decimal formatting.) -/
def cellStr : Cell → String
  | .str s => s
  | .num q => if q.den = 1 then toString q.num ++ ".0" else toString q.num ++ "/" ++ toString q.den
  | .blank => "nan"

-- ========= configuration lists from the source =========

/-- `KEYWORDS` from the source, verbatim (note that
`"измерительная установка"` occurs twice in the source list). -/
def KEYWORDS : List String := [
  "сикг","сикн","сикнс","сикк","уирг","ууг","уун","асн","асу тп","асутп",
  "узел учета","узел учёта","узел измерения","узел редуцирования",
  "измеритель","измерительная установка","система измерен","система контроля",
  "агзу","измерительная установка",
  "система налива","пункт налива","станция налива","система слива","пункт слива","эстакада",
  "налив нефти","слив нефти","налив метанола","герметичный налив",
  "установка дозирования","дозирован","узел ввода реагентов","удх","удхб",
  "блок-бокс","блочный","модульный блок","технологический блок","блочно-модульная",
  "пробоотбор","пробоотборник","сог","хал","лаборатор","химико-аналитичес","газоаналитичес",
  "анализатор","хроматограф","метрологический стенд","поверочный стенд","испытательный стенд",
  "кип","контрольно-измерительн","датчик","датчики","манометр","уровнемер","расходомер",
  "термометр","термопара","тсп","ртд","манифольд","диафрагма",
  "пнр","шмр","пир","модернизация","проектирование","комплекс поставки"]

/-- `CLIENTS` from the source, verbatim. -/
def CLIENTS : List String := [
  "газпром","газпромнефть","лукойл","роснефть","славнефть","самаранефтегаз","няганьнефть",
  "восток-оил","инк","ннк","ритэк","башнефть","метафракс","еврохим","русснефть",
  "томскнефть","мессояханефтегаз","русгаз","бск","козс","татнефть"]

/-- `LEAD_PATTERNS` from the source.  Each regex is a literal string,
optionally anchored with `^`; the Boolean records the anchor.  `re.search`
with `re.IGNORECASE` on such a pattern is prefix (anchored) or substring
(unanchored) containment after lower-casing. -/
def LEAD_PATTERNS : List (Bool × String) := [
  (true, "ткп"), (true, "ап"), (true, "com"), (false, "запрос"), (false, "поставка"),
  (false, "система"), (false, "узел"), (false, "модернизация"), (false, "проектирование"),
  (false, "комплекс"), (false, "блок"), (false, "асутп"), (false, "асу тп")]

/-- `NAME_ALIASES` from the source. -/
def NAME_ALIASES : List String :=
  ["название","название сделки","название лида","наименование","предмет","тема","лот"]

/-- `COMPANY_ALIASES` from the source. -/
def COMPANY_ALIASES : List String :=
  ["компания","заказчик","покупатель","организация","клиент","контрагент","инициатор"]

/-- `AMOUNT_ALIASES` from the source. -/
def AMOUNT_ALIASES : List String :=
  ["сумма","бюджет","нмцк","начальная цена","стоимость","price","amount","total","макс цена"]

-- ========= scoring functions from the source =========

/-- `_any_in(text, bag)`: any element of `bag` a substring of the
lower-cased text. -/
def _any_in (text : String) (bag : List String) : Bool :=
  bag.any (fun k => hasSub k (pyLower text))

/-- `_any_re(text, patterns)`: some pattern matches (see `LEAD_PATTERNS`
for the regex model). -/
def _any_re (text : String) (patterns : List (Bool × String)) : Bool :=
  patterns.any (fun p =>
    if p.1 then decide (p.2.data <+: (pyLower text).data) else hasSub p.2 (pyLower text))

/-- `_score_keywords(s)`: `hits = sum(k in t for k in KEYWORDS)` over the
lower-cased text, then bucketed to 0–4. -/
def _score_keywords (s : String) : ℕ :=
  let t := pyLower s
  let hits := KEYWORDS.countP (fun k => hasSub k t)
  if hits ≥ 4 then 4 else if hits = 3 then 3 else if hits = 2 then 2
  else if hits = 1 then 1 else 0

/-- `_score_client(s)`: 3 if any known client occurs in the text, else 0. -/
def _score_client (s : String) : ℕ := if _any_in s CLIENTS then 3 else 0

/-- The threshold comparison chain of `_score_amount` on an
already-numeric value. -/
def _score_amount_q (a : ℚ) : ℕ :=
  if a ≥ 300000000 then 2 else if a ≥ 50000000 then 1 else 0

/-- `_score_amount(a)`: `try: a = float(a) except: a = 0.0`, then the
threshold chain. -/
def _score_amount (a : Cell) : ℕ := _score_amount_q ((toNumeric a).getD 0)

/-- `_score_pattern(s)`: 1 if some lead pattern matches, else 0. -/
def _score_pattern (s : String) : ℕ := if _any_re s LEAD_PATTERNS then 1 else 0

/-- `_priority(total)`: High / Medium / Low tiers.  The source takes an
`int`; the pipeline applies it to the (integral) total-score column, so the
argument is the modelled numeric value. -/
def _priority (total : ℚ) : String :=
  if total ≥ 7 then "High" else if total ≥ 4 then "Medium" else "Low"

-- ========= the language-model call's error handling =========

/-- Outcome of the HTTP interaction inside `call_openai`: either a response
(with status, raw body text, and either the successfully extracted
`choices[0].message.content` string or the message of the local exception
raised while decoding the body), or a transport-level exception. -/
inductive LMOutcome where
  | response (status : ℕ) (text : String) (body : Except String String)
  | transportError (msg : String)

/-- Model of `call_openai`'s result as a function of the HTTP outcome.
`r.raise_for_status()` raises `httpx.HTTPStatusError` exactly for
non-success (non-2xx) statuses, which the first `except` arm turns into
the OpenAI warning string; every other exception (transport failure,
body-decoding failure) is caught by the second arm.  The function is total:
it never propagates an exception to its caller. -/
def call_openai : LMOutcome → String
  | .response status text body =>
    if 200 ≤ status ∧ status < 300 then
      match body with
      | .ok c => pyStrip c
      | .error m => "⚠️ Локальная ошибка: " ++ m
    else "⚠️ OpenAI " ++ toString status ++ ": " ++ text
  | .transportError m => "⚠️ Локальная ошибка: " ++ m

-- ========= the pandas table model =========

/-- A pandas DataFrame: named columns over rows of cells, aligned by
position.  (pandas frames are rectangular; rows are normalised to the
header count when the model mutates them.) -/
structure Table where
  headers : List String
  rows : List (List Cell)
deriving DecidableEq, Repr

/-- Normalise a row to exactly `n` cells (pandas rows always have one cell
per column; this makes the model total on ill-formed rows). -/
def padTo (n : ℕ) (r : List Cell) : List Cell :=
  r.take n ++ List.replicate (n - r.length) Cell.blank

/-- Replace NaN by the given fill value, as `df.fillna(v)` does. -/
def fillCell : Cell → Cell
  | .blank => .str ""
  | c => c

/-- `df_in.copy().fillna("")`: a fresh frame with NaN replaced by the empty
string. -/
def copyFill (t : Table) : Table :=
  ⟨t.headers, t.rows.map (fun r => (padTo t.headers.length r).map fillCell)⟩

/-- Position of a column label, first match (pandas labels are positional). -/
def colIdx (hs : List String) (name : String) : Option ℕ := hs.findIdx? (· == name)

/-- Cell of a row at a column position. -/
def cellAt (r : List Cell) (i : ℕ) : Cell := r.getD i Cell.blank

/-- `row[name]`: the row's cell under a column label. -/
def rowVal (hs : List String) (r : List Cell) (name : String) : Cell :=
  match colIdx hs name with
  | some i => cellAt r i
  | none => Cell.blank

/-- `df[name]` as a list of cells (empty when the label is absent; the
pipeline only reads labels it has ensured exist). -/
def getColCells (t : Table) (name : String) : List Cell :=
  t.rows.map (fun r => rowVal t.headers r name)

/-- `df[name] = vals`: overwrite the column if the label exists, else append
it as the last column. -/
def setCol (t : Table) (name : String) (vals : List Cell) : Table :=
  match colIdx t.headers name with
  | some i => ⟨t.headers, (t.rows.zip vals).map (fun p => (padTo t.headers.length p.1).set i p.2)⟩
  | none => ⟨t.headers ++ [name], (t.rows.zip vals).map (fun p => padTo t.headers.length p.1 ++ [p.2])⟩

/-- `df[name] = scalar`. -/
def setColConst (t : Table) (name : String) (c : Cell) : Table :=
  setCol t name (t.rows.map (fun _ => c))

-- ========= column auto-detection from the source =========

/-- `str(c).strip().lower()`, the normalised form of a header used as the
`cols_map` dictionary key. -/
def normKey (c : String) : String := pyLower (pyStrip c)

/-- Insertion into a Python dict rendered as an association list: an
existing key keeps its position and gets the new value; a new key is
appended. -/
def dictInsert (m : List (String × String)) (k v : String) : List (String × String) :=
  if m.any (fun p => p.1 == k) then m.map (fun p => if p.1 == k then (k, v) else p)
  else m ++ [(k, v)]

/-- `cols_map = {str(c).strip().lower(): c for c in df.columns}`. -/
def colsMap (hs : List String) : List (String × String) :=
  hs.foldl (fun m c => dictInsert m (normKey c) c) []

/-- Dictionary lookup (`a in cols_map` / `cols_map[a]`). -/
def dictGet (m : List (String × String)) (k : String) : Option String :=
  (m.find? (fun p => p.1 == k)).map (·.2)

/-- `_find_col(df, aliases)`: first the exact-match loop over the aliases,
then the substring-containment loop over the dictionary entries, else
`None`. -/
def _find_col (t : Table) (aliases : List String) : Option String :=
  let m := colsMap t.headers
  match aliases.findSome? (fun a => dictGet m a) with
  | some c => some c
  | none => m.findSome? (fun p => if aliases.any (fun a => hasSub a p.1) then some p.2 else none)

/-- Python's `x or default` for an optional string: `None` and the empty
string are falsy. -/
def pyOr (o : Option String) (d : String) : String :=
  match o with
  | some s => if s = "" then d else s
  | none => d

-- ========= the scoring pipeline `mce_filter_scored` =========

/-- The working frame `df = df_in.copy().fillna("")`. -/
def df0 (t : Table) : Table := copyFill t

/-- `name_col = _find_col(df, NAME_ALIASES) or "Название"`. -/
def nameColOf (t : Table) : String := pyOr (_find_col (df0 t) NAME_ALIASES) "Название"

/-- `company_col = _find_col(df, COMPANY_ALIASES) or "Компания"`. -/
def companyColOf (t : Table) : String := pyOr (_find_col (df0 t) COMPANY_ALIASES) "Компания"

/-- `amount_col = _find_col(df, AMOUNT_ALIASES) or "Сумма"`. -/
def amountColOf (t : Table) : String := pyOr (_find_col (df0 t) AMOUNT_ALIASES) "Сумма"

/-- The three `if col not in df.columns: df[col] = default` statements:
synthesize an empty-text name/company column and a zero amount column when
detection failed. -/
def ensureCols (t : Table) : Table :=
  let d := df0 t
  let d := if (nameColOf t) ∈ d.headers then d else setColConst d (nameColOf t) (.str "")
  let d := if (companyColOf t) ∈ d.headers then d else setColConst d (companyColOf t) (.str "")
  let d := if (amountColOf t) ∈ d.headers then d else setColConst d (amountColOf t) (.num 0)
  d

/-- The two `astype(str)` conversions of the name and company columns. -/
def prepDf (t : Table) : Table :=
  let d := ensureCols t
  let d := setCol d (nameColOf t) ((getColCells d (nameColOf t)).map (fun c => .str (cellStr c)))
  setCol d (companyColOf t) ((getColCells d (companyColOf t)).map (fun c => .str (cellStr c)))

/-- `kw = df[name_col].apply(_score_keywords)`. -/
def kwSeries (t : Table) : List ℕ :=
  (getColCells (prepDf t) (nameColOf t)).map (fun c => _score_keywords (cellStr c))

/-- `cl = df[company_col].apply(_score_client)`. -/
def clSeries (t : Table) : List ℕ :=
  (getColCells (prepDf t) (companyColOf t)).map (fun c => _score_client (cellStr c))

/-- `amt_vals = pd.to_numeric(df[amount_col], errors="coerce").fillna(0.0)`. -/
def amtValsSeries (t : Table) : List ℚ :=
  (getColCells (prepDf t) (amountColOf t)).map (fun c => (toNumeric c).getD 0)

/-- `amt = amt_vals.apply(_score_amount)` (the values are already floats,
so only the threshold chain applies). -/
def amtSeries (t : Table) : List ℕ := (amtValsSeries t).map _score_amount_q

/-- `pat = df[name_col].apply(_score_pattern)`. -/
def patSeries (t : Table) : List ℕ :=
  (getColCells (prepDf t) (nameColOf t)).map (fun c => _score_pattern (cellStr c))

/-- `df[[the four score columns]].sum(axis=1)`; the four columns were just
assigned from the series, so the row-wise sum is the sum of the series. -/
def totalSeries (t : Table) : List ℕ :=
  ((kwSeries t).zip ((clSeries t).zip ((amtSeries t).zip (patSeries t)))).map
    (fun p => p.1 + p.2.1 + p.2.2.1 + p.2.2.2)

/-- `df["Score_keywords(0-4)"] = kw`. -/
def dKw (t : Table) : Table :=
  setCol (prepDf t) "Score_keywords(0-4)" ((kwSeries t).map (fun n : ℕ => .num (n : ℚ)))

/-- `df["Score_client(0-3)"] = cl`. -/
def dCl (t : Table) : Table :=
  setCol (dKw t) "Score_client(0-3)" ((clSeries t).map (fun n : ℕ => .num (n : ℚ)))

/-- `df["Score_amount(0-2)"] = amt`. -/
def dAmt (t : Table) : Table :=
  setCol (dCl t) "Score_amount(0-2)" ((amtSeries t).map (fun n : ℕ => .num (n : ℚ)))

/-- `df["Score_pattern(0-1)"] = pat`. -/
def dPat (t : Table) : Table :=
  setCol (dAmt t) "Score_pattern(0-1)" ((patSeries t).map (fun n : ℕ => .num (n : ℚ)))

/-- The five score-column assignments on `df` (the total column last). -/
def withScores (t : Table) : Table :=
  setCol (dPat t) "Score_total(0-10)" ((totalSeries t).map (fun n : ℕ => .num (n : ℚ)))

/-- `base_mask = (kw >= 1) | (cl >= 1) | (pat >= 1)`. -/
def baseMask (t : Table) : List Bool :=
  ((kwSeries t).zip ((clSeries t).zip (patSeries t))).map
    (fun p => decide (1 ≤ p.1) || decide (1 ≤ p.2.1) || decide (1 ≤ p.2.2))

/-- The amount gate: `amt_vals >= 0` (commented "always True") when
`MIN_SUM <= 0`, else `(amt_vals >= MIN_SUM) | (kw >= 1) | (pat >= 1)`. -/
def sumMask (minSum : ℚ) (t : Table) : List Bool :=
  if minSum ≤ 0 then (amtValsSeries t).map (fun a => decide (0 ≤ a))
  else
    ((amtValsSeries t).zip ((kwSeries t).zip (patSeries t))).map
      (fun p => decide (minSum ≤ p.1) || decide (1 ≤ p.2.1) || decide (1 ≤ p.2.2))

/-- `base_mask & sum_mask`. -/
def maskOf (minSum : ℚ) (t : Table) : List Bool :=
  (baseMask t).zipWith (· && ·) (sumMask minSum t)

/-- Boolean-mask row selection, `df[mask]`. -/
def filterRows (rows : List (List Cell)) (mask : List Bool) : List (List Cell) :=
  ((rows.zip mask).filter (fun p => p.2)).map (·.1)

/-- `out = df[base_mask & sum_mask].copy()`. -/
def outFiltered (minSum : ℚ) (t : Table) : Table :=
  ⟨(withScores t).headers, filterRows (withScores t).rows (maskOf minSum t)⟩

/-- `out["Priority"] = out["Score_total(0-10)"].apply(_priority)` (that
column is numeric by construction, so its numeric value feeds `_priority`). -/
def withPriority (minSum : ℚ) (t : Table) : Table :=
  setCol (outFiltered minSum t) "Priority"
    ((getColCells (outFiltered minSum t) "Score_total(0-10)").map
      (fun c => .str (_priority ((toNumeric c).getD 0))))

/-- `_reason(row)`: the explanation string listing the positive criteria in
fixed order, with a fallback when none is positive. -/
def _reason (hs : List String) (r : List Cell) : String :=
  let parts : List String :=
    (if 0 < (toNumeric (rowVal hs r "Score_keywords(0-4)")).getD 0 then ["направления/ключевые слова"] else []) ++
    (if 0 < (toNumeric (rowVal hs r "Score_client(0-3)")).getD 0 then ["целевой заказчик"] else []) ++
    (if 0 < (toNumeric (rowVal hs r "Score_amount(0-2)")).getD 0 then ["масштаб сделки"] else []) ++
    (if 0 < (toNumeric (rowVal hs r "Score_pattern(0-1)")).getD 0 then ["тендерный шаблон"] else [])
  if parts = [] then "значимых совпадений нет" else String.intercalate ", " parts

/-- `out["Причина"] = out.apply(_reason, axis=1)`. -/
def withReason (minSum : ℚ) (t : Table) : Table :=
  setCol (withPriority minSum t) "Причина"
    ((withPriority minSum t).rows.map
      (fun r => .str (_reason (withPriority minSum t).headers r)))

/-- `prio_order = {"High":0, "Medium":1, "Low":2}` applied by `.map`: any
other value becomes NaN. -/
def prioNum (s : String) : Option ℕ :=
  if s = "High" then some 0 else if s = "Medium" then some 1
  else if s = "Low" then some 2 else none

/-- The lexicographic sort-key type: priority rank ascending, then total
score descending, then numeric amount descending, with NaN keys last at
every level (pandas `na_position="last"`); `OrderDual` encodes descending,
`⊤` encodes NaN-last. -/
abbrev SortKey := Lex (WithTop ℕ × Lex (WithTop ℚᵒᵈ × WithTop ℚᵒᵈ))

/-- NaN-last embedding of an optional ascending key. -/
def optTopN (o : Option ℕ) : WithTop ℕ := o.elim ⊤ (fun n => (n : WithTop ℕ))

/-- NaN-last embedding of an optional descending key. -/
def optTopQd (o : Option ℚ) : WithTop ℚᵒᵈ :=
  o.elim ⊤ (fun q => ((OrderDual.toDual q : ℚᵒᵈ) : WithTop ℚᵒᵈ))

/-- The sort key of a row, as computed by
`out.sort_values(by=["Priority","Score_total(0-10)", amount_col], key=...,
ascending=[True, False, False])`: `prio_order` on the Priority column and
`pd.to_numeric(..., errors="coerce")` on the other two. -/
def sortKey (hs : List String) (amountCol : String) (r : List Cell) : SortKey :=
  toLex (optTopN (prioNum (cellStr (rowVal hs r "Priority"))),
    toLex (optTopQd (toNumeric (rowVal hs r "Score_total(0-10)")),
           optTopQd (toNumeric (rowVal hs r amountCol))))

/-- Comparator fed to the stable sort. -/
def rowLE (hs : List String) (amountCol : String) (r1 r2 : List Cell) : Bool :=
  decide (sortKey hs amountCol r1 ≤ sortKey hs amountCol r2)

/-- The diagnostics record assembled at the end of `mce_filter_scored`. -/
structure Diag where
  name_col : String
  company_col : String
  amount_col : String
  kw_hits : ℕ
  client_hits : ℕ
  pattern_hits : ℕ
  sum_ge_min : ℕ
  total_in : ℕ
  total_out : ℕ
deriving DecidableEq, Repr

/-- The `diag` dictionary: detected column names, per-criterion hit counts
(`int((series >= 1).sum())`), the `sum_ge_min` count, and the input/output
row counts. -/
def diagOf (minSum : ℚ) (t : Table) : Diag :=
  { name_col := nameColOf t
    company_col := companyColOf t
    amount_col := amountColOf t
    kw_hits := (kwSeries t).countP (fun k => 1 ≤ k)
    client_hits := (clSeries t).countP (fun c => 1 ≤ c)
    pattern_hits := (patSeries t).countP (fun p => 1 ≤ p)
    sum_ge_min :=
      if 0 < minSum then (amtValsSeries t).countP (fun a => decide (minSum ≤ a))
      else (prepDf t).rows.length
    total_in := (prepDf t).rows.length
    total_out := (withReason minSum t).rows.length }

/-- The `out.sort_values(...)` step: the multi-column pandas sort is a
stable lexicographic sort, modelled by `List.mergeSort` on `sortKey`. -/
def sortedRowsOf (minSum : ℚ) (t : Table) : List (List Cell) :=
  (withReason minSum t).rows.mergeSort
    (rowLE (withReason minSum t).headers (amountColOf t))

/-- `mce_filter_scored(df_in)` with the module-level configuration `MIN_SUM`
made explicit: the sorted scored table and the diagnostics record. -/
def mce_filter_scored (minSum : ℚ) (t : Table) : Table × Diag :=
  (⟨(withReason minSum t).headers, sortedRowsOf minSum t⟩, diagOf minSum t)

/-- The headers after a column assignment. -/
def setColHeaders (hs : List String) (name : String) : List String :=
  match colIdx hs name with
  | some _ => hs
  | none => hs ++ [name]

/-- The effect of a column assignment on a single (padded) row. -/
def updCol (hs : List String) (name : String) (v : Cell) (r : List Cell) : List Cell :=
  match colIdx hs name with
  | some j => (padTo hs.length r).set j v
  | none => padTo hs.length r ++ [v]

-- ========= heap model of the call (`df = df_in.copy()`) =========

/-- A Python object heap restricted to DataFrames: addresses are list
indices.  `mceHeap` models calling `mce_filter_scored` on the frame at
address `a`: the body's first statement copies the argument
(`df = df_in.copy().fillna("")`), and every subsequent write in the body
targets frames allocated within the call (`df` and the filtered copy
`out`), never the caller's frame.  The call returns the address of the
result frame together with the diagnostics record. -/
def mceHeap (minSum : ℚ) (h : List Table) (a : ℕ) : List Table × ℕ × Diag :=
  match h[a]? with
  | none => (h, a, diagOf minSum ⟨[], []⟩)
  | some t =>
      let h1 := h ++ [withReason minSum t]
      let h2 := h1 ++ [(mce_filter_scored minSum t).1]
      (h2, h1.length, diagOf minSum t)

/-- The keyword sub-score of a prepared row. -/
def kwF (t : Table) (r : List Cell) : ℕ :=
  _score_keywords (cellStr (rowVal (prepDf t).headers r (nameColOf t)))

/-- The client sub-score of a prepared row. -/
def clF (t : Table) (r : List Cell) : ℕ :=
  _score_client (cellStr (rowVal (prepDf t).headers r (companyColOf t)))

/-- The coerced amount of a prepared row. -/
def amtvF (t : Table) (r : List Cell) : ℚ :=
  (toNumeric (rowVal (prepDf t).headers r (amountColOf t))).getD 0

/-- The amount sub-score of a prepared row. -/
def amtF (t : Table) (r : List Cell) : ℕ := _score_amount_q (amtvF t r)

/-- The pattern sub-score of a prepared row. -/
def patF (t : Table) (r : List Cell) : ℕ :=
  _score_pattern (cellStr (rowVal (prepDf t).headers r (nameColOf t)))

-- per-row effect of the five score-column assignments

/-- Row effect of the keyword-column assignment. -/
def FKw (t : Table) (r : List Cell) : List Cell :=
  updCol (prepDf t).headers "Score_keywords(0-4)" (.num (kwF t r)) r

/-- Row effect of the client-column assignment. -/
def FCl (t : Table) (r : List Cell) : List Cell :=
  updCol (dKw t).headers "Score_client(0-3)" (.num (clF t r)) (FKw t r)

/-- Row effect of the amount-column assignment. -/
def FAmt (t : Table) (r : List Cell) : List Cell :=
  updCol (dCl t).headers "Score_amount(0-2)" (.num (amtF t r)) (FCl t r)

/-- Row effect of the pattern-column assignment. -/
def FPat (t : Table) (r : List Cell) : List Cell :=
  updCol (dAmt t).headers "Score_pattern(0-1)" (.num (patF t r)) (FAmt t r)

/-- Row effect of the total-column assignment. -/
def FTot (t : Table) (r : List Cell) : List Cell :=
  updCol (dPat t).headers "Score_total(0-10)"
    (.num ((kwF t r + clF t r + amtF t r + patF t r : ℕ) : ℚ)) (FPat t r)

-- ========= claim C2 =========

/-- Modelled from the spec's words for claim C2: the count of distinct
configured vocabulary keywords occurring in the text ("distinct" realised
by deduplicating the configured list), bucketed exactly as the source
buckets. -/
def distinctKeywordScore (s : String) : ℕ :=
  let t := pyLower s
  let hits := KEYWORDS.dedup.countP (fun k => hasSub k t)
  if hits ≥ 4 then 4 else if hits = 3 then 3 else if hits = 2 then 2
  else if hits = 1 then 1 else 0

-- ========= theorems =========
-- ========= claim C1 =========

/-- Claim C1, evaluation at the failing input: with the amount threshold
disabled (`MIN_SUM = 0`), a row whose name contains the keyword "сикг"
(keyword sub-score 1, so it passes the semantic gate) but whose amount is
-1 is dropped by the amount gate `amt_vals >= 0`, even though the claim —
and the source's own comment on that line, "всегда True" — says the amount
gate always passes when the configured minimum is ≤ 0. -/
theorem C1_negative_amount_dropped :
    _score_keywords "сикг" = 1 ∧
    sumMask 0 ⟨["Название", "Сумма"], [[.str "сикг", .num (-1)]]⟩ = [false] ∧
    (mce_filter_scored 0 ⟨["Название", "Сумма"], [[.str "сикг", .num (-1)]]⟩).1.rows = [] ∧
    (mce_filter_scored 0 ⟨["Название", "Сумма"], [[.str "сикг", .num (-1)]]⟩).2.total_out = 0 := by
  have hempty : (withReason 0 ⟨["Название", "Сумма"], [[.str "сикг", .num (-1)]]⟩).rows = [] := by
    decide
  refine ⟨by decide, by decide, ?_, by decide⟩
  show sortedRowsOf 0 ⟨["Название", "Сумма"], [[.str "сикг", .num (-1)]]⟩ = []
  unfold sortedRowsOf
  rw [hempty, List.mergeSort_nil]

-- ========= claim C5 =========

/-- Transitivity of the row comparator. -/
theorem rowLE_trans (hs : List String) (a : String) :
    ∀ r1 r2 r3, rowLE hs a r1 r2 → rowLE hs a r2 r3 → rowLE hs a r1 r3 := by
  intro r1 r2 r3 h1 h2
  simp only [rowLE, decide_eq_true_eq] at h1 h2 ⊢
  exact le_trans h1 h2

/-- Totality of the row comparator. -/
theorem rowLE_total (hs : List String) (a : String) :
    ∀ r1 r2, rowLE hs a r1 r2 || rowLE hs a r2 r1 := by
  intro r1 r2
  simp only [rowLE, Bool.or_eq_true, decide_eq_true_eq]
  exact le_total _ _

/-- The stable-sort core of claim C5, over an arbitrary header list,
amount-column label and row list. -/
theorem mergeSort_rowLE_sorted_stable (H : List String) (A : String)
    (l : List (List Cell)) :
    (l.mergeSort (rowLE H A)).Pairwise
      (fun r1 r2 => sortKey H A r1 ≤ sortKey H A r2) ∧
    ∀ k : SortKey,
      (l.mergeSort (rowLE H A)).filter (fun r => decide (sortKey H A r = k)) =
      l.filter (fun r => decide (sortKey H A r = k)) := by
  constructor
  · have hs := List.sorted_mergeSort
      (rowLE_trans H A) (rowLE_total H A) l
    exact hs.imp (fun hab => by simpa [rowLE, decide_eq_true_eq] using hab)
  · intro k
    have hsubl : List.Sublist (l.filter (fun r => decide (sortKey H A r = k))) l :=
      List.filter_sublist l
    have hpair : (l.filter (fun r => decide (sortKey H A r = k))).Pairwise
        (fun r1 r2 => rowLE H A r1 r2 = true) := by
      apply List.pairwise_of_forall_mem_list
      intro x hx y hy
      have hx' : sortKey H A x = k := of_decide_eq_true (List.mem_filter.mp hx).2
      have hy' : sortKey H A y = k := of_decide_eq_true (List.mem_filter.mp hy).2
      simp [rowLE, hx', hy']
    have hsub2 := List.sublist_mergeSort (rowLE_trans H A) (rowLE_total H A) hpair hsubl
    have hsub3 := hsub2.filter (fun r => decide (sortKey H A r = k))
    have hidem : (l.filter (fun r => decide (sortKey H A r = k))).filter
        (fun r => decide (sortKey H A r = k)) =
        l.filter (fun r => decide (sortKey H A r = k)) :=
      List.filter_eq_self.mpr (fun a ha => (List.mem_filter.mp ha).2)
    rw [hidem] at hsub3
    have hperm := (List.mergeSort_perm l (rowLE H A)).filter
      (fun r => decide (sortKey H A r = k))
    exact (hsub3.eq_of_length hperm.length_eq.symm).symm

/-- Claim C5: the output rows are sorted by the lexicographic key
(priority rank ascending, total score descending, numeric amount
descending), and the sort is stable — for every key value, the rows
carrying that key appear in the output in exactly the order in which they
appeared before sorting. -/
theorem C5_sorted_stable (minSum : ℚ) (t : Table) :
    (mce_filter_scored minSum t).1 =
      ⟨(withReason minSum t).headers, sortedRowsOf minSum t⟩ ∧
    (sortedRowsOf minSum t).Pairwise
      (fun r1 r2 =>
        sortKey (withReason minSum t).headers (amountColOf t) r1 ≤
        sortKey (withReason minSum t).headers (amountColOf t) r2) ∧
    ∀ k : SortKey,
      (sortedRowsOf minSum t).filter
        (fun r => decide (sortKey (withReason minSum t).headers (amountColOf t) r = k)) =
      (withReason minSum t).rows.filter
        (fun r => decide (sortKey (withReason minSum t).headers (amountColOf t) r = k)) := by
  refine ⟨rfl, ?_, ?_⟩
  · show ((withReason minSum t).rows.mergeSort
      (rowLE (withReason minSum t).headers (amountColOf t))).Pairwise _
    exact (mergeSort_rowLE_sorted_stable (withReason minSum t).headers (amountColOf t)
      (withReason minSum t).rows).1
  · show ∀ k : SortKey,
      ((withReason minSum t).rows.mergeSort
        (rowLE (withReason minSum t).headers (amountColOf t))).filter
        (fun r => decide (sortKey (withReason minSum t).headers (amountColOf t) r = k)) =
      (withReason minSum t).rows.filter
        (fun r => decide (sortKey (withReason minSum t).headers (amountColOf t) r = k))
    exact (mergeSort_rowLE_sorted_stable (withReason minSum t).headers (amountColOf t)
      (withReason minSum t).rows).2

-- ========= table access lemmas =========

theorem padTo_length (n : ℕ) (r : List Cell) : (padTo n r).length = n := by
  simp only [padTo, List.length_append, List.length_take, List.length_replicate]
  omega

theorem cellAt_padTo {n i : ℕ} {r : List Cell} (h : i < n) :
    cellAt (padTo n r) i = cellAt r i := by
  unfold cellAt padTo
  rw [List.getD_eq_getElem?_getD, List.getD_eq_getElem?_getD]
  rcases Nat.lt_or_ge i r.length with hlt | hge
  · rw [List.getElem?_append_left (by simp only [List.length_take]; omega),
      List.getElem?_take_of_lt h]
  · rw [List.getElem?_append_right (by simp only [List.length_take]; omega),
      List.getElem?_eq_none hge]
    simp only [List.length_take, List.getElem?_replicate]
    rw [if_pos (by omega)]
    rfl

theorem padTo_eq_self {n : ℕ} {r : List Cell} (h : r.length = n) : padTo n r = r := by
  unfold padTo
  rw [List.take_of_length_le (le_of_eq h), h, Nat.sub_self, List.replicate_zero,
    List.append_nil]

-- ========= dictionary (`cols_map`) lemmas =========

theorem dictInsert_mem {m : List (String × String)} {k v : String} {p : String × String}
    (hp : p ∈ dictInsert m k v) : p ∈ m ∨ p = (k, v) := by
  unfold dictInsert at hp
  split at hp
  · obtain ⟨q, hq, hgq⟩ := List.mem_map.mp hp
    by_cases hqk : q.1 == k
    · right; rw [if_pos hqk] at hgq; exact hgq.symm
    · left; rw [if_neg hqk] at hgq; exact hgq ▸ hq
  · rcases List.mem_append.mp hp with h | h
    · exact Or.inl h
    · right; simpa using h

theorem dictInsert_key_self (m : List (String × String)) (k v : String) :
    ∃ q ∈ dictInsert m k v, q.1 = k := by
  unfold dictInsert
  split
  · next hany =>
    obtain ⟨q, hq, hqk⟩ := List.any_eq_true.mp hany
    exact ⟨(k, v), List.mem_map.mpr ⟨q, hq, by rw [if_pos hqk]⟩, rfl⟩
  · exact ⟨(k, v), List.mem_append.mpr (Or.inr (by simp)), rfl⟩

theorem dictInsert_key_preserved {m : List (String × String)} {k' : String} (k v : String)
    (h : ∃ q ∈ m, q.1 = k') : ∃ q ∈ dictInsert m k v, q.1 = k' := by
  by_cases hkk : k' = k
  · subst hkk; exact dictInsert_key_self m k' v
  · obtain ⟨q, hq, hq1⟩ := h
    unfold dictInsert
    split
    · refine ⟨(k, v, q).2.2, ?_, hq1⟩
      · refine List.mem_map.mpr ⟨q, hq, ?_⟩
        rw [if_neg (by simp [hq1, hkk])]
    · exact ⟨q, List.mem_append.mpr (Or.inl hq), hq1⟩

theorem colsMap_go_mem : ∀ (hs : List String) (m : List (String × String))
    (p : String × String),
    p ∈ hs.foldl (fun m c => dictInsert m (normKey c) c) m →
    p ∈ m ∨ (p.2 ∈ hs ∧ p.1 = normKey p.2)
  | [], _, _, hp => Or.inl hp
  | c :: tl, m, p, hp => by
    simp only [List.foldl_cons] at hp
    rcases colsMap_go_mem tl (dictInsert m (normKey c) c) p hp with h | ⟨h1, h2⟩
    · rcases dictInsert_mem h with h' | h'
      · exact Or.inl h'
      · right
        rw [h']
        exact ⟨List.mem_cons_self c tl, rfl⟩
    · exact Or.inr ⟨List.mem_cons_of_mem c h1, h2⟩

theorem colsMap_go_key : ∀ (hs : List String) (m : List (String × String)) (k : String),
    ((∃ q ∈ m, q.1 = k) ∨ (∃ h ∈ hs, normKey h = k)) →
    ∃ q ∈ hs.foldl (fun m c => dictInsert m (normKey c) c) m, q.1 = k
  | [], m, k, h => by
    rcases h with h | h
    · exact h
    · simp at h
  | c :: tl, m, k, h => by
    simp only [List.foldl_cons]
    apply colsMap_go_key tl (dictInsert m (normKey c) c) k
    rcases h with h | ⟨x, hx, hk⟩
    · exact Or.inl (dictInsert_key_preserved (normKey c) c h)
    · rcases List.mem_cons.mp hx with hxc | hxtl
      · subst hxc
        exact Or.inl (hk ▸ dictInsert_key_self m (normKey x) x)
      · exact Or.inr ⟨x, hxtl, hk⟩

theorem colsMap_mem {hs : List String} {p : String × String} (hp : p ∈ colsMap hs) :
    p.2 ∈ hs ∧ p.1 = normKey p.2 := by
  rcases colsMap_go_mem hs [] p hp with h | h
  · simp at h
  · exact h

theorem colsMap_key {hs : List String} {h : String} (hh : h ∈ hs) :
    ∃ q ∈ colsMap hs, q.1 = normKey h :=
  colsMap_go_key hs [] (normKey h) (Or.inr ⟨h, hh, rfl⟩)

theorem dictGet_eq_some {m : List (String × String)} {k c : String}
    (h : dictGet m k = some c) : (k, c) ∈ m := by
  unfold dictGet at h
  cases hf : m.find? (fun p => p.1 == k) with
  | none => rw [hf] at h; simp at h
  | some q =>
    rw [hf] at h
    have hq : q.1 = k :=
      of_decide_eq_true (by exact_mod_cast (List.find?_eq_some.mp hf).1)
    have hqm : q ∈ m := List.mem_of_find?_eq_some hf
    have h2 : q.2 = c := by simpa using h
    have hq' : q = (k, c) := by
      cases q
      simp_all
    exact hq' ▸ hqm

theorem dictGet_isSome_of_key {m : List (String × String)} {k : String}
    (h : ∃ q ∈ m, q.1 = k) : (dictGet m k).isSome := by
  unfold dictGet
  obtain ⟨q, hq, hk⟩ := h
  rw [Option.isSome_map']
  exact List.find?_isSome.mpr ⟨q, hq, by simp [hk]⟩

-- ========= `_find_col` characterization =========

/-- A detected column is an actual header and matches some alias exactly or
by containment. -/
theorem _find_col_some (t : Table) (aliases : List String) (c : String)
    (h : _find_col t aliases = some c) :
    c ∈ t.headers ∧ ∃ a ∈ aliases, (normKey c = a ∨ hasSub a (normKey c) = true) := by
  unfold _find_col at h
  dsimp only at h
  cases hex : aliases.findSome? (fun a => dictGet (colsMap t.headers) a) with
  | some c' =>
    rw [hex] at h
    dsimp only at h
    simp only [Option.some_inj] at h
    subst h
    obtain ⟨a, ha, hget⟩ := List.exists_of_findSome?_eq_some hex
    have hm := colsMap_mem (dictGet_eq_some hget)
    exact ⟨hm.1, a, ha, Or.inl hm.2.symm⟩
  | none =>
    rw [hex] at h
    dsimp only at h
    obtain ⟨p, hp, hif⟩ := List.exists_of_findSome?_eq_some h
    have hm := colsMap_mem hp
    by_cases hany : aliases.any (fun a => hasSub a p.1)
    · rw [if_pos hany] at hif
      have hpc : p.2 = c := by simpa using hif
      obtain ⟨a, ha, hsub⟩ := List.any_eq_true.mp hany
      subst hpc
      exact ⟨hm.1, a, ha, Or.inr (hm.2 ▸ hsub)⟩
    · rw [if_neg hany] at hif
      exact absurd hif (by simp)

/-- Exact-match priority: when some header equals some alias after
normalisation, the detection succeeds and returns an exactly-matching
header (substring containment is never consulted). -/
theorem _find_col_exact (t : Table) (aliases : List String)
    (h : ∃ hd ∈ t.headers, ∃ a ∈ aliases, normKey hd = a) :
    ∃ c, _find_col t aliases = some c ∧ c ∈ t.headers ∧
      ∃ a ∈ aliases, normKey c = a := by
  obtain ⟨hd, hhd, a, ha, hnorm⟩ := h
  have hkey : ∃ q ∈ colsMap t.headers, q.1 = a := hnorm ▸ colsMap_key hhd
  have hget : (dictGet (colsMap t.headers) a).isSome := dictGet_isSome_of_key hkey
  have hex : (aliases.findSome? (fun x => dictGet (colsMap t.headers) x)).isSome := by
    rw [List.findSome?_isSome_iff]
    exact ⟨a, ha, hget⟩
  obtain ⟨c, hc⟩ := Option.isSome_iff_exists.mp hex
  refine ⟨c, ?_, ?_⟩
  · unfold _find_col
    dsimp only
    rw [hc]
  · obtain ⟨a', ha', hget'⟩ := List.exists_of_findSome?_eq_some hc
    have hm := colsMap_mem (dictGet_eq_some hget')
    exact ⟨hm.1, a', ha', hm.2.symm⟩

/-- Detection fails exactly when no alias matches any normalised header,
neither exactly nor as a substring. -/
theorem _find_col_none_iff (t : Table) (aliases : List String) :
    _find_col t aliases = none ↔
      ∀ hd ∈ t.headers, ∀ a ∈ aliases,
        normKey hd ≠ a ∧ hasSub a (normKey hd) = false := by
  constructor
  · intro h hd hhd a ha
    unfold _find_col at h
    dsimp only at h
    cases hex : aliases.findSome? (fun x => dictGet (colsMap t.headers) x) with
    | some c => rw [hex] at h; dsimp only at h; exact absurd h (by simp)
    | none =>
      rw [hex] at h
      dsimp only at h
      have hexact := List.findSome?_eq_none_iff.mp hex
      have hsubstr := List.findSome?_eq_none_iff.mp h
      constructor
      · intro heq
        have hkey : ∃ q ∈ colsMap t.headers, q.1 = a := heq ▸ colsMap_key hhd
        have hsome := dictGet_isSome_of_key hkey
        rw [hexact a ha] at hsome
        simp at hsome
      · obtain ⟨q, hq, hq1⟩ := colsMap_key hhd
        have hnone := hsubstr q hq
        by_cases hany : aliases.any (fun x => hasSub x q.1)
        · rw [if_pos hany] at hnone; simp at hnone
        · have hall := List.any_eq_false.mp (Bool.eq_false_iff.mpr hany)
          have := hall a ha
          rw [hq1] at this
          exact Bool.eq_false_iff.mpr this
  · intro hcond
    unfold _find_col
    dsimp only
    have hexact : aliases.findSome? (fun x => dictGet (colsMap t.headers) x) = none := by
      rw [List.findSome?_eq_none_iff]
      intro a ha
      cases hg : dictGet (colsMap t.headers) a with
      | none => rfl
      | some c =>
        have hm := colsMap_mem (dictGet_eq_some hg)
        exact absurd hm.2.symm ((hcond _ hm.1 a ha).1)
    rw [hexact]
    dsimp only
    rw [List.findSome?_eq_none_iff]
    intro p hp
    have hm := colsMap_mem hp
    have hanyf : aliases.any (fun x => hasSub x p.1) = false := by
      rw [List.any_eq_false]
      intro a ha
      have hs := (hcond p.2 hm.1 a ha).2
      rw [hm.2]
      simp [hs]
    simp [hanyf]

-- ========= column write/read lemmas =========

/-- Appending a fresh column: headers gain the new label at the end and
each row gains the constant cell at the end. -/
theorem setColConst_fresh (t : Table) (name : String) (c : Cell)
    (h : name ∉ t.headers) :
    (setColConst t name c).headers = t.headers ++ [name] ∧
    (setColConst t name c).rows =
      t.rows.map (fun r => padTo t.headers.length r ++ [c]) := by
  unfold setColConst setCol
  have hidx : colIdx t.headers name = none := by
    unfold colIdx
    rw [List.findIdx?_eq_none_iff]
    intro x hx
    simp only [beq_eq_false_iff_ne, ne_eq]
    rintro rfl
    exact h hx
  rw [hidx]
  refine ⟨rfl, ?_⟩
  have hz : t.rows.zip (t.rows.map (fun _ => c)) = t.rows.map (fun r => (r, c)) := by
    have := List.zip_map' id (fun _ => c) t.rows
    simpa using this
  simp only [hz, List.map_map]
  rfl

/-- Reading the freshly appended column of a row gives the appended cell. -/
theorem rowVal_snoc_self {hs : List String} {name : String} {r : List Cell} {c : Cell}
    (hn : name ∉ hs) (hr : r.length = hs.length) :
    rowVal (hs ++ [name]) (r ++ [c]) name = c := by
  unfold rowVal colIdx
  have h1 : hs.findIdx? (· == name) = none := by
    rw [List.findIdx?_eq_none_iff]
    intro x hx
    simp only [beq_eq_false_iff_ne, ne_eq]
    rintro rfl
    exact hn hx
  have h2 : ([name].findIdx? (· == name)) = some 0 := by simp
  rw [List.findIdx?_append, h1, h2]
  simp only [Option.none_or, Option.map_some']
  unfold cellAt
  rw [List.getD_eq_getElem?_getD, Nat.zero_add, show hs.length = r.length from hr.symm,
    List.getElem?_concat_length]
  rfl

/-- Reading any other column is unaffected by appending a fresh column. -/
theorem rowVal_snoc_other {hs : List String} {name other : String} {r : List Cell}
    {c : Cell} (hne : other ≠ name) (hr : r.length = hs.length) :
    rowVal (hs ++ [name]) (r ++ [c]) other = rowVal hs r other := by
  unfold rowVal colIdx
  have hno : (name == other) = false := beq_eq_false_iff_ne.mpr (Ne.symm hne)
  have h2 : ([name].findIdx? (· == other)) = none := by simp [hno]
  rw [List.findIdx?_append, h2]
  cases hidx : hs.findIdx? (· == other) with
  | some i =>
    simp only [Option.map_none', Option.or_none]
    have hi : i < hs.length := (List.findIdx?_eq_some_iff_findIdx_eq.mp hidx).1
    unfold cellAt
    rw [List.getD_eq_getElem?_getD, List.getD_eq_getElem?_getD,
      List.getElem?_append_left (by omega)]
  | none => simp

/-- When none of the three alias lists matches any header, the scorer
falls back to the default labels and synthesizes the three columns:
empty text for name and company, zero for amount. -/
theorem ensureCols_all_missing (t : Table)
    (hn : _find_col (df0 t) NAME_ALIASES = none)
    (hc : _find_col (df0 t) COMPANY_ALIASES = none)
    (ha : _find_col (df0 t) AMOUNT_ALIASES = none) :
    nameColOf t = "Название" ∧ companyColOf t = "Компания" ∧ amountColOf t = "Сумма" ∧
    (ensureCols t).headers = t.headers ++ ["Название", "Компания", "Сумма"] ∧
    ∀ r ∈ (ensureCols t).rows,
      rowVal (ensureCols t).headers r "Название" = .str "" ∧
      rowVal (ensureCols t).headers r "Компания" = .str "" ∧
      rowVal (ensureCols t).headers r "Сумма" = .num 0 := by
  have hnc : nameColOf t = "Название" := by unfold nameColOf; rw [hn]; rfl
  have hcc : companyColOf t = "Компания" := by unfold companyColOf; rw [hc]; rfl
  have hac : amountColOf t = "Сумма" := by unfold amountColOf; rw [ha]; rfl
  have hdf0h : (df0 t).headers = t.headers := rfl
  have hmemN : "Название" ∉ t.headers := by
    intro hmem
    have := ((_find_col_none_iff (df0 t) NAME_ALIASES).mp hn "Название"
      (hdf0h ▸ hmem) "название" (by decide)).1
    exact this (by decide)
  have hmemK : "Компания" ∉ t.headers := by
    intro hmem
    have := ((_find_col_none_iff (df0 t) COMPANY_ALIASES).mp hc "Компания"
      (hdf0h ▸ hmem) "компания" (by decide)).1
    exact this (by decide)
  have hmemS : "Сумма" ∉ t.headers := by
    intro hmem
    have := ((_find_col_none_iff (df0 t) AMOUNT_ALIASES).mp ha "Сумма"
      (hdf0h ▸ hmem) "сумма" (by decide)).1
    exact this (by decide)
  have hmemN0 : "Название" ∉ (df0 t).headers := by rw [hdf0h]; exact hmemN
  have h1 := setColConst_fresh (df0 t) "Название" (.str "") hmemN0
  have h1h : (setColConst (df0 t) "Название" (.str "")).headers =
      t.headers ++ ["Название"] := by rw [h1.1, hdf0h]
  have hmemK1 : "Компания" ∉ (setColConst (df0 t) "Название" (.str "")).headers := by
    rw [h1h]
    intro hmem
    rcases List.mem_append.mp hmem with hmem | hmem
    · exact hmemK hmem
    · simp at hmem
  have h2 := setColConst_fresh (setColConst (df0 t) "Название" (.str ""))
    "Компания" (.str "") hmemK1
  have h2h : (setColConst (setColConst (df0 t) "Название" (.str ""))
      "Компания" (.str "")).headers =
      (t.headers ++ ["Название"]) ++ ["Компания"] := by rw [h2.1, h1h]
  have hmemS2 : "Сумма" ∉ (setColConst (setColConst (df0 t) "Название" (.str ""))
      "Компания" (.str "")).headers := by
    rw [h2h]
    intro hmem
    rcases List.mem_append.mp hmem with hmem | hmem
    · rcases List.mem_append.mp hmem with hmem | hmem
      · exact hmemS hmem
      · simp at hmem
    · simp at hmem
  have h3 := setColConst_fresh (setColConst (setColConst (df0 t) "Название" (.str ""))
    "Компания" (.str "")) "Сумма" (.num 0) hmemS2
  have hens : ensureCols t =
      setColConst (setColConst (setColConst (df0 t) "Название" (.str ""))
        "Компания" (.str "")) "Сумма" (.num 0) := by
    unfold ensureCols
    rw [hnc, hcc, hac]
    dsimp only
    rw [if_neg hmemN0, if_neg hmemK1, if_neg hmemS2]
  have h3h : (ensureCols t).headers =
      ((t.headers ++ ["Название"]) ++ ["Компания"]) ++ ["Сумма"] := by
    rw [hens, h3.1, h2h]
  refine ⟨hnc, hcc, hac, by rw [h3h]; simp, ?_⟩
  intro r hr
  rw [hens, h3.2] at hr
  obtain ⟨r2, hr2, rfl⟩ := List.mem_map.mp hr
  rw [h2.2] at hr2
  obtain ⟨r1, hr1, rfl⟩ := List.mem_map.mp hr2
  rw [h1.2] at hr1
  obtain ⟨r0, _, rfl⟩ := List.mem_map.mp hr1
  have l0 : (padTo (df0 t).headers.length r0).length = t.headers.length := by
    rw [padTo_length, hdf0h]
  have l1 : (padTo (df0 t).headers.length r0 ++ [Cell.str ""]).length =
      t.headers.length + 1 := by simp [l0]
  have e1 : padTo (setColConst (df0 t) "Название" (.str "")).headers.length
      (padTo (df0 t).headers.length r0 ++ [Cell.str ""]) =
      padTo (df0 t).headers.length r0 ++ [Cell.str ""] := by
    apply padTo_eq_self
    rw [l1, h1h]
    simp
  rw [e1]
  have l2 : ((padTo (df0 t).headers.length r0 ++ [Cell.str ""]) ++ [Cell.str ""]).length =
      t.headers.length + 2 := by simp [l0]
  have e2 : padTo (setColConst (setColConst (df0 t) "Название" (.str ""))
      "Компания" (.str "")).headers.length
      ((padTo (df0 t).headers.length r0 ++ [Cell.str ""]) ++ [Cell.str ""]) =
      (padTo (df0 t).headers.length r0 ++ [Cell.str ""]) ++ [Cell.str ""] := by
    apply padTo_eq_self
    rw [l2, h2h]
    simp
  rw [e2, h3h]
  have hlen2 : ((padTo (df0 t).headers.length r0 ++ [Cell.str ""]) ++ [Cell.str ""]).length =
      ((t.headers ++ ["Название"]) ++ ["Компания"]).length := by simp [l0]
  have hlen1 : (padTo (df0 t).headers.length r0 ++ [Cell.str ""]).length =
      (t.headers ++ ["Название"]).length := by simp [l0]
  have hmemK1x : "Компания" ∉ t.headers ++ ["Название"] := h1h ▸ hmemK1
  have hmemS2x : "Сумма" ∉ (t.headers ++ ["Название"]) ++ ["Компания"] := h2h ▸ hmemS2
  refine ⟨?_, ?_, ?_⟩
  · rw [rowVal_snoc_other (by decide) hlen2, rowVal_snoc_other (by decide) hlen1,
      rowVal_snoc_self hmemN l0]
  · rw [rowVal_snoc_other (by decide) hlen2, rowVal_snoc_self hmemK1x hlen1]
  · rw [rowVal_snoc_self hmemS2x hlen2]

-- ========= claim C6 =========

/-- Claim C6: column auto-detection matches headers case-insensitively and
trimmed against the alias lists — a returned column is a real header
matched exactly or by containment; an exact match anywhere wins before
substring containment is consulted; detection returns nothing exactly when
no alias matches any normalised header either way; and when detection
fails for all three roles the scorer synthesizes default columns (empty
text for name/company, zero for amount) instead of failing. -/
theorem C6_column_detection (t : Table) :
    (∀ aliases c, _find_col t aliases = some c →
        c ∈ t.headers ∧ ∃ a ∈ aliases, (normKey c = a ∨ hasSub a (normKey c) = true)) ∧
    (∀ aliases, (∃ hd ∈ t.headers, ∃ a ∈ aliases, normKey hd = a) →
        ∃ c, _find_col t aliases = some c ∧ c ∈ t.headers ∧
          ∃ a ∈ aliases, normKey c = a) ∧
    (∀ aliases, _find_col t aliases = none ↔
        ∀ hd ∈ t.headers, ∀ a ∈ aliases,
          normKey hd ≠ a ∧ hasSub a (normKey hd) = false) ∧
    (_find_col (df0 t) NAME_ALIASES = none →
     _find_col (df0 t) COMPANY_ALIASES = none →
     _find_col (df0 t) AMOUNT_ALIASES = none →
      nameColOf t = "Название" ∧ companyColOf t = "Компания" ∧
      amountColOf t = "Сумма" ∧
      (ensureCols t).headers = t.headers ++ ["Название", "Компания", "Сумма"] ∧
      ∀ r ∈ (ensureCols t).rows,
        rowVal (ensureCols t).headers r "Название" = .str "" ∧
        rowVal (ensureCols t).headers r "Компания" = .str "" ∧
        rowVal (ensureCols t).headers r "Сумма" = .num 0) :=
  ⟨fun aliases c h => _find_col_some t aliases c h,
   fun aliases h => _find_col_exact t aliases h,
   fun aliases => _find_col_none_iff t aliases,
   fun hn hc ha => ensureCols_all_missing t hn hc ha⟩

/-- Claim C6, witness: on a table whose single header "Тема" exactly
matches an alias, detection succeeds with an exact match; on a table whose
single header "x" matches nothing, all three defaults are synthesized. -/
theorem C6_column_detection_witness :
    (∃ c, _find_col ⟨["Тема"], [[.str "v"]]⟩ NAME_ALIASES = some c ∧
      c ∈ (⟨["Тема"], [[.str "v"]]⟩ : Table).headers ∧
      ∃ a ∈ NAME_ALIASES, normKey c = a) ∧
    nameColOf ⟨["x"], [[.str "v"]]⟩ = "Название" ∧
    (ensureCols ⟨["x"], [[.str "v"]]⟩).headers =
      ["x"] ++ ["Название", "Компания", "Сумма"] := by
  have h2 := (C6_column_detection ⟨["x"], [[.str "v"]]⟩).2.2.2
    (by decide) (by decide) (by decide)
  exact ⟨(C6_column_detection ⟨["Тема"], [[.str "v"]]⟩).2.1 NAME_ALIASES
      ⟨"Тема", by decide, "тема", by decide, by decide⟩,
    h2.1, h2.2.2.2.1⟩

-- ========= column update machinery =========

theorem colIdx_lt {hs : List String} {name : String} {j : ℕ}
    (h : colIdx hs name = some j) : j < hs.length ∧ hs[j]? = some name := by
  unfold colIdx at h
  obtain ⟨hlt, hp, _⟩ := List.findIdx?_eq_some_iff_getElem.mp h
  refine ⟨hlt, ?_⟩
  have he : hs[j] = name := by simpa using hp
  exact List.getElem?_eq_some.mpr ⟨hlt, he⟩

theorem colIdx_none_not_mem {hs : List String} {name : String}
    (h : colIdx hs name = none) : name ∉ hs := by
  unfold colIdx at h
  intro hmem
  have := List.findIdx?_eq_none_iff.mp h name hmem
  simp at this

theorem colIdx_none_of_not_mem {hs : List String} {name : String}
    (h : name ∉ hs) : colIdx hs name = none := by
  unfold colIdx
  rw [List.findIdx?_eq_none_iff]
  intro x hx
  simp only [beq_eq_false_iff_ne, ne_eq]
  rintro rfl
  exact h hx

theorem rowVal_padTo {hs : List String} (r : List Cell) (c : String) :
    rowVal hs (padTo hs.length r) c = rowVal hs r c := by
  unfold rowVal
  cases hc : colIdx hs c with
  | none => rfl
  | some j => exact cellAt_padTo (colIdx_lt hc).1

theorem setCol_headers (t : Table) (name : String) (vals : List Cell) :
    (setCol t name vals).headers = setColHeaders t.headers name := by
  unfold setCol setColHeaders
  cases colIdx t.headers name <;> rfl

/-- A column assignment whose values are a map over a base list, applied to
a table whose rows are a map over the same base, is again a map over the
base. -/
theorem setCol_rows_map (o : Table) (name : String) (base : List (List Cell))
    (F : List Cell → List Cell) (g : List Cell → Cell)
    (ho : o.rows = base.map F) :
    (setCol o name (base.map g)).rows =
      base.map (fun r => updCol o.headers name (g r) (F r)) := by
  unfold setCol updCol
  cases hj : colIdx o.headers name with
  | some j =>
    dsimp only
    rw [ho]
    have hz := List.zip_map' F g base
    rw [hz, List.map_map]
    rfl
  | none =>
    dsimp only
    rw [ho]
    have hz := List.zip_map' F g base
    rw [hz, List.map_map]
    rfl

theorem rowVal_updCol_self (hs : List String) (name : String) (v : Cell)
    (r : List Cell) :
    rowVal (setColHeaders hs name) (updCol hs name v r) name = v := by
  unfold setColHeaders updCol
  cases hj : colIdx hs name with
  | some j =>
    dsimp only
    unfold rowVal
    rw [hj]
    dsimp only
    have hjl : j < hs.length := (colIdx_lt hj).1
    unfold cellAt
    rw [List.getD_eq_getElem?_getD,
      List.getElem?_set_self (by rw [padTo_length]; exact hjl)]
    rfl
  | none =>
    dsimp only
    exact rowVal_snoc_self (colIdx_none_not_mem hj) (padTo_length _ _)

theorem rowVal_updCol_other {hs : List String} {name c : String} (hne : c ≠ name)
    (v : Cell) (r : List Cell) :
    rowVal (setColHeaders hs name) (updCol hs name v r) c = rowVal hs r c := by
  unfold setColHeaders updCol
  cases hj : colIdx hs name with
  | some j =>
    dsimp only
    unfold rowVal
    cases hc : colIdx hs c with
    | none => rfl
    | some j' =>
      have hname : hs[j]? = some name := (colIdx_lt hj).2
      have hcval : hs[j']? = some c := (colIdx_lt hc).2
      have hjj : j ≠ j' := by
        rintro rfl
        rw [hname] at hcval
        exact hne (by simpa using hcval.symm)
      dsimp only
      unfold cellAt
      rw [List.getD_eq_getElem?_getD, List.getD_eq_getElem?_getD,
        List.getElem?_set_ne hjj]
      have hpad := cellAt_padTo (n := hs.length) (r := r) (colIdx_lt hc).1
      unfold cellAt at hpad
      rw [List.getD_eq_getElem?_getD, List.getD_eq_getElem?_getD] at hpad
      exact hpad
  | none =>
    dsimp only
    rw [rowVal_snoc_other hne (padTo_length _ _), rowVal_padTo]

/-- A member of a mask-filtered list sits at an index where the mask is
true. -/
theorem filterRows_mem {rows : List (List Cell)} {mask : List Bool} {r : List Cell}
    (h : r ∈ filterRows rows mask) :
    ∃ i : ℕ, rows[i]? = some r ∧ mask[i]? = some true := by
  unfold filterRows at h
  obtain ⟨p, hp, hpr⟩ := List.mem_map.mp h
  have hpf := List.mem_filter.mp hp
  obtain ⟨i, hi⟩ := List.getElem?_of_mem hpf.1
  obtain ⟨h1, h2⟩ := List.getElem?_zip_eq_some.mp hi
  refine ⟨i, ?_, ?_⟩
  · rw [h1, hpr]
  · rw [h2]
    have : p.2 = true := by simpa using hpf.2
    rw [this]

-- ========= row-count preservation =========

theorem df0_rows_length (t : Table) : (df0 t).rows.length = t.rows.length := by
  unfold df0 copyFill
  simp

theorem setColConst_rows_length (t : Table) (n : String) (c : Cell) :
    (setColConst t n c).rows.length = t.rows.length := by
  unfold setColConst
  rw [setCol_rows_map t n t.rows id _ (List.map_id _).symm, List.length_map]

theorem ensureCols_rows_length (t : Table) :
    (ensureCols t).rows.length = t.rows.length := by
  unfold ensureCols
  dsimp only
  split <;> split <;> split <;>
    simp only [setColConst_rows_length, df0_rows_length]

theorem astype_rows_length (d : Table) (n : String) :
    (setCol d n ((getColCells d n).map (fun c => Cell.str (cellStr c)))).rows.length =
      d.rows.length := by
  have hv : (getColCells d n).map (fun c => Cell.str (cellStr c)) =
      d.rows.map (fun r => Cell.str (cellStr (rowVal d.headers r n))) := by
    unfold getColCells
    rw [List.map_map]
    rfl
  rw [hv, setCol_rows_map d n d.rows id _ (List.map_id _).symm, List.length_map]

theorem prepDf_rows_length (t : Table) : (prepDf t).rows.length = t.rows.length := by
  unfold prepDf
  dsimp only
  rw [astype_rows_length, astype_rows_length, ensureCols_rows_length]

theorem setColHeaders_fresh {hs : List String} {name : String} (h : name ∉ hs) :
    setColHeaders hs name = hs ++ [name] := by
  unfold setColHeaders
  rw [colIdx_none_of_not_mem h]

theorem not_mem_append_singleton {a b : String} {l : List String}
    (h1 : a ∉ l) (h2 : a ≠ b) : a ∉ l ++ [b] := by
  intro hmem
  rcases List.mem_append.mp hmem with hm | hm
  · exact h1 hm
  · simp at hm
    exact h2 hm

-- ========= per-row views of the score series =========

section SealedPipeline

attribute [local irreducible] copyFill df0 ensureCols prepDf nameColOf
  companyColOf amountColOf _find_col colsMap normKey

theorem kwSeries_eq (t : Table) : kwSeries t = (prepDf t).rows.map (kwF t) := by
  unfold kwSeries getColCells kwF
  rw [List.map_map]
  apply List.map_congr_left
  intro a _
  rfl

theorem clSeries_eq (t : Table) : clSeries t = (prepDf t).rows.map (clF t) := by
  unfold clSeries getColCells clF
  rw [List.map_map]
  apply List.map_congr_left
  intro a _
  rfl

theorem amtValsSeries_eq (t : Table) :
    amtValsSeries t = (prepDf t).rows.map (amtvF t) := by
  unfold amtValsSeries getColCells amtvF
  rw [List.map_map]
  apply List.map_congr_left
  intro a _
  rfl

theorem amtSeries_eq (t : Table) : amtSeries t = (prepDf t).rows.map (amtF t) := by
  unfold amtSeries amtF
  rw [amtValsSeries_eq, List.map_map]
  apply List.map_congr_left
  intro a _
  rfl

theorem patSeries_eq (t : Table) : patSeries t = (prepDf t).rows.map (patF t) := by
  unfold patSeries getColCells patF
  rw [List.map_map]
  apply List.map_congr_left
  intro a _
  rfl

theorem totalSeries_eq (t : Table) :
    totalSeries t =
      (prepDf t).rows.map (fun r => kwF t r + clF t r + amtF t r + patF t r) := by
  unfold totalSeries
  rw [kwSeries_eq, clSeries_eq, amtSeries_eq, patSeries_eq,
    List.zip_map', List.zip_map', List.zip_map', List.map_map]
  apply List.map_congr_left
  intro a _
  rfl

theorem baseMask_eq (t : Table) :
    baseMask t =
      (prepDf t).rows.map (fun r =>
        decide (1 ≤ kwF t r) || decide (1 ≤ clF t r) || decide (1 ≤ patF t r)) := by
  unfold baseMask
  rw [kwSeries_eq, clSeries_eq, patSeries_eq, List.zip_map', List.zip_map',
    List.map_map]
  apply List.map_congr_left
  intro a _
  rfl

theorem sumMask_eq (minSum : ℚ) (t : Table) :
    sumMask minSum t =
      if minSum ≤ 0 then (prepDf t).rows.map (fun r => decide (0 ≤ amtvF t r))
      else (prepDf t).rows.map (fun r =>
        decide (minSum ≤ amtvF t r) || decide (1 ≤ kwF t r) || decide (1 ≤ patF t r)) := by
  unfold sumMask
  split
  · rw [amtValsSeries_eq, List.map_map]
    apply List.map_congr_left
    intro a _
    rfl
  · rw [amtValsSeries_eq, kwSeries_eq, patSeries_eq, List.zip_map', List.zip_map',
      List.map_map]
    apply List.map_congr_left
    intro a _
    rfl

theorem dKw_rows (t : Table) : (dKw t).rows = (prepDf t).rows.map (FKw t) := by
  unfold dKw
  rw [kwSeries_eq, List.map_map,
    setCol_rows_map (prepDf t) _ (prepDf t).rows id _ (List.map_id _).symm]
  apply List.map_congr_left
  intro a _
  rfl

theorem dCl_rows (t : Table) : (dCl t).rows = (prepDf t).rows.map (FCl t) := by
  unfold dCl
  rw [clSeries_eq, List.map_map,
    setCol_rows_map (dKw t) _ (prepDf t).rows (FKw t) _ (dKw_rows t)]
  apply List.map_congr_left
  intro a _
  rfl

theorem dAmt_rows (t : Table) : (dAmt t).rows = (prepDf t).rows.map (FAmt t) := by
  unfold dAmt
  rw [amtSeries_eq, List.map_map,
    setCol_rows_map (dCl t) _ (prepDf t).rows (FCl t) _ (dCl_rows t)]
  apply List.map_congr_left
  intro a _
  rfl

theorem dPat_rows (t : Table) : (dPat t).rows = (prepDf t).rows.map (FPat t) := by
  unfold dPat
  rw [patSeries_eq, List.map_map,
    setCol_rows_map (dAmt t) _ (prepDf t).rows (FAmt t) _ (dAmt_rows t)]
  apply List.map_congr_left
  intro a _
  rfl

theorem withScores_rows (t : Table) :
    (withScores t).rows = (prepDf t).rows.map (FTot t) := by
  unfold withScores
  rw [totalSeries_eq, List.map_map,
    setCol_rows_map (dPat t) _ (prepDf t).rows (FPat t) _ (dPat_rows t)]
  apply List.map_congr_left
  intro a _
  rfl

/-- The four sub-score cells of a fully scored row. -/
theorem FTot_reads (t : Table) (r : List Cell) :
    rowVal (withScores t).headers (FTot t r) "Score_keywords(0-4)" = .num (kwF t r) ∧
    rowVal (withScores t).headers (FTot t r) "Score_client(0-3)" = .num (clF t r) ∧
    rowVal (withScores t).headers (FTot t r) "Score_amount(0-2)" = .num (amtF t r) ∧
    rowVal (withScores t).headers (FTot t r) "Score_pattern(0-1)" = .num (patF t r) := by
  have h5 : (withScores t).headers = setColHeaders (dPat t).headers "Score_total(0-10)" :=
    setCol_headers _ _ _
  have h4 : (dPat t).headers = setColHeaders (dAmt t).headers "Score_pattern(0-1)" :=
    setCol_headers _ _ _
  have h3 : (dAmt t).headers = setColHeaders (dCl t).headers "Score_amount(0-2)" :=
    setCol_headers _ _ _
  have h2 : (dCl t).headers = setColHeaders (dKw t).headers "Score_client(0-3)" :=
    setCol_headers _ _ _
  have h1 : (dKw t).headers = setColHeaders (prepDf t).headers "Score_keywords(0-4)" :=
    setCol_headers _ _ _
  refine ⟨?_, ?_, ?_, ?_⟩
  · rw [h5]
    unfold FTot
    rw [rowVal_updCol_other (by decide), h4]
    unfold FPat
    rw [rowVal_updCol_other (by decide), h3]
    unfold FAmt
    rw [rowVal_updCol_other (by decide), h2]
    unfold FCl
    rw [rowVal_updCol_other (by decide), h1]
    unfold FKw
    exact rowVal_updCol_self _ _ _ _
  · rw [h5]
    unfold FTot
    rw [rowVal_updCol_other (by decide), h4]
    unfold FPat
    rw [rowVal_updCol_other (by decide), h3]
    unfold FAmt
    rw [rowVal_updCol_other (by decide), h2]
    unfold FCl
    exact rowVal_updCol_self _ _ _ _
  · rw [h5]
    unfold FTot
    rw [rowVal_updCol_other (by decide), h4]
    unfold FPat
    rw [rowVal_updCol_other (by decide), h3]
    unfold FAmt
    exact rowVal_updCol_self _ _ _ _
  · rw [h5]
    unfold FTot
    rw [rowVal_updCol_other (by decide), h4]
    unfold FPat
    exact rowVal_updCol_self _ _ _ _

theorem withPriority_rows (minSum : ℚ) (t : Table) :
    (withPriority minSum t).rows =
      (outFiltered minSum t).rows.map (fun r =>
        updCol (outFiltered minSum t).headers "Priority"
          (.str (_priority ((toNumeric (rowVal (outFiltered minSum t).headers r
            "Score_total(0-10)")).getD 0))) r) := by
  unfold withPriority
  have hv : (getColCells (outFiltered minSum t) "Score_total(0-10)").map
      (fun c => Cell.str (_priority ((toNumeric c).getD 0))) =
      (outFiltered minSum t).rows.map (fun r =>
        Cell.str (_priority ((toNumeric (rowVal (outFiltered minSum t).headers r
          "Score_total(0-10)")).getD 0))) := by
    unfold getColCells
    rw [List.map_map]
    apply List.map_congr_left
    intro a _
    rfl
  rw [hv, setCol_rows_map (outFiltered minSum t) _ (outFiltered minSum t).rows id _
    (List.map_id _).symm]
  apply List.map_congr_left
  intro a _
  simp only [id_eq]

theorem withReason_rows (minSum : ℚ) (t : Table) :
    (withReason minSum t).rows =
      (withPriority minSum t).rows.map (fun r =>
        updCol (withPriority minSum t).headers "Причина"
          (.str (_reason (withPriority minSum t).headers r)) r) := by
  unfold withReason
  rw [setCol_rows_map (withPriority minSum t) _ (withPriority minSum t).rows id _
    (List.map_id _).symm]
  apply List.map_congr_left
  intro a _
  simp only [id_eq]

theorem withReason_headers (minSum : ℚ) (t : Table) :
    (withReason minSum t).headers =
      setColHeaders (withPriority minSum t).headers "Причина" := by
  unfold withReason
  exact setCol_headers _ _ _

theorem withPriority_headers (minSum : ℚ) (t : Table) :
    (withPriority minSum t).headers =
      setColHeaders (outFiltered minSum t).headers "Priority" := by
  unfold withPriority
  exact setCol_headers _ _ _

/-- Reading a column other than the two appended ones from a final row
sees the fully scored row underneath. -/
theorem final_read_frame (minSum : ℚ) (t : Table) (w : List Cell) (c : String)
    (hc1 : c ≠ "Причина") (hc2 : c ≠ "Priority") (vp vr : Cell) :
    rowVal (withReason minSum t).headers
      (updCol (withPriority minSum t).headers "Причина" vr
        (updCol (outFiltered minSum t).headers "Priority" vp w)) c =
    rowVal (withScores t).headers w c := by
  rw [withReason_headers, rowVal_updCol_other hc1, withPriority_headers,
    rowVal_updCol_other hc2]
  rfl

/-- Reading the explanation column of a final row sees the appended cell. -/
theorem final_read_reason (minSum : ℚ) (t : Table) (w : List Cell) (vp vr : Cell) :
    rowVal (withReason minSum t).headers
      (updCol (withPriority minSum t).headers "Причина" vr
        (updCol (outFiltered minSum t).headers "Priority" vp w)) "Причина" = vr := by
  rw [withReason_headers]
  exact rowVal_updCol_self _ _ _ _

/-- Reading a non-Priority column of a priority-augmented row sees the
scored row underneath. -/
theorem prio_read_frame (minSum : ℚ) (t : Table) (w : List Cell) (vp : Cell)
    (c : String) (hc : c ≠ "Priority") :
    rowVal (withPriority minSum t).headers
      (updCol (outFiltered minSum t).headers "Priority" vp w) c =
    rowVal (withScores t).headers w c := by
  rw [withPriority_headers, rowVal_updCol_other hc]
  rfl

/-- Claim C10: every row of the scored output has at least one of the
keyword, client, or pattern sub-scores strictly positive, and its
explanation cell is never the no-matches fallback text. -/
theorem C10_survivors_semantic (minSum : ℚ) (t : Table) (r : List Cell)
    (hr : r ∈ (mce_filter_scored minSum t).1.rows) :
    (0 < (toNumeric (rowVal (mce_filter_scored minSum t).1.headers r
        "Score_keywords(0-4)")).getD 0 ∨
     0 < (toNumeric (rowVal (mce_filter_scored minSum t).1.headers r
        "Score_client(0-3)")).getD 0 ∨
     0 < (toNumeric (rowVal (mce_filter_scored minSum t).1.headers r
        "Score_pattern(0-1)")).getD 0) ∧
    cellStr (rowVal (mce_filter_scored minSum t).1.headers r "Причина") ≠
      "значимых совпадений нет" := by
  have hrows : (mce_filter_scored minSum t).1.rows = sortedRowsOf minSum t := rfl
  have hH : (mce_filter_scored minSum t).1.headers = (withReason minSum t).headers := rfl
  rw [hrows] at hr
  rw [hH]
  unfold sortedRowsOf at hr
  rw [List.mem_mergeSort] at hr
  rw [withReason_rows] at hr
  obtain ⟨r2, hr2, rfl⟩ := List.mem_map.mp hr
  rw [withPriority_rows] at hr2
  obtain ⟨r1, hr1, rfl⟩ := List.mem_map.mp hr2
  have hofr : (outFiltered minSum t).rows =
      filterRows (withScores t).rows (maskOf minSum t) := rfl
  rw [hofr] at hr1
  obtain ⟨i, hrow_i, hmask_i⟩ := filterRows_mem hr1
  rw [withScores_rows, List.getElem?_map] at hrow_i
  cases h0 : (prepDf t).rows[i]? with
  | none => rw [h0] at hrow_i; simp at hrow_i
  | some r0 =>
    rw [h0, Option.map_some'] at hrow_i
    have hr1eq : r1 = FTot t r0 := (Option.some_inj.mp hrow_i).symm
    subst hr1eq
    unfold maskOf at hmask_i
    obtain ⟨b1, b2, hb1, hb2, hb12⟩ := List.getElem?_zipWith_eq_some.mp hmask_i
    rw [baseMask_eq, List.getElem?_map, h0, Option.map_some'] at hb1
    have hb1v := Option.some_inj.mp hb1
    have hb1t : b1 = true := by
      cases b1
      · simp at hb12
      · rfl
    rw [hb1t] at hb1v
    have hbase : 1 ≤ kwF t r0 ∨ 1 ≤ clF t r0 ∨ 1 ≤ patF t r0 := by
      have hx := hb1v
      simp only [Bool.or_eq_true, decide_eq_true_eq] at hx
      tauto
    have hreads := FTot_reads t r0
    constructor
    · rw [final_read_frame minSum t (FTot t r0) "Score_keywords(0-4)"
        (by decide) (by decide), hreads.1,
        final_read_frame minSum t (FTot t r0) "Score_client(0-3)"
        (by decide) (by decide), hreads.2.1,
        final_read_frame minSum t (FTot t r0) "Score_pattern(0-1)"
        (by decide) (by decide), hreads.2.2.2]
      simp only [toNumeric, Option.getD_some, Nat.cast_pos]
      rcases hbase with hb | hb | hb
      · exact Or.inl (by omega)
      · exact Or.inr (Or.inl (by omega))
      · exact Or.inr (Or.inr (by omega))
    · rw [final_read_reason]
      show _reason (withPriority minSum t).headers _ ≠ _
      unfold _reason
      rw [prio_read_frame minSum t (FTot t r0) _ "Score_keywords(0-4)" (by decide),
        hreads.1,
        prio_read_frame minSum t (FTot t r0) _ "Score_client(0-3)" (by decide),
        hreads.2.1,
        prio_read_frame minSum t (FTot t r0) _ "Score_amount(0-2)" (by decide),
        hreads.2.2.1,
        prio_read_frame minSum t (FTot t r0) _ "Score_pattern(0-1)" (by decide),
        hreads.2.2.2]
      simp only [toNumeric, Option.getD_some, Nat.cast_pos]
      by_cases h1 : 0 < kwF t r0 <;> by_cases h2 : 0 < clF t r0 <;>
        by_cases h3 : 0 < amtF t r0 <;> by_cases h4 : 0 < patF t r0 <;>
        simp only [h1, h2, h3, h4, if_true, if_false, ite_true, ite_false,
          List.append_nil, List.nil_append, List.cons_append] <;>
        first
          | decide
          | (rcases hbase with hb | hb | hb <;> omega)

/-- Claim C7: scoring does not mutate the caller's frame — after the call
the input address still holds the original table — and the call returns a
freshly built table whose headers are the prepared input columns followed
by the four sub-score columns, the total column, the priority column and
the explanation column, together with the diagnostics record carrying the
detected column names and the input/output row counts. -/
theorem C7_no_mutation (minSum : ℚ) (h : List Table) (a : ℕ) (t : Table)
    (ht : h[a]? = some t)
    (hfresh : ∀ c ∈ ["Score_keywords(0-4)", "Score_client(0-3)", "Score_amount(0-2)",
        "Score_pattern(0-1)", "Score_total(0-10)", "Priority", "Причина"],
      c ∉ (prepDf t).headers) :
    ((mceHeap minSum h a).1)[a]? = some t ∧
    ((mceHeap minSum h a).1)[(mceHeap minSum h a).2.1]? =
      some (mce_filter_scored minSum t).1 ∧
    (mceHeap minSum h a).2.2 = diagOf minSum t ∧
    (mce_filter_scored minSum t).1.headers =
      (prepDf t).headers ++ ["Score_keywords(0-4)", "Score_client(0-3)",
        "Score_amount(0-2)", "Score_pattern(0-1)", "Score_total(0-10)",
        "Priority", "Причина"] ∧
    (diagOf minSum t).name_col = nameColOf t ∧
    (diagOf minSum t).company_col = companyColOf t ∧
    (diagOf minSum t).amount_col = amountColOf t ∧
    (diagOf minSum t).total_in = t.rows.length ∧
    (diagOf minSum t).total_out = (mce_filter_scored minSum t).1.rows.length := by
  have hrun : mceHeap minSum h a =
      (h ++ [withReason minSum t] ++ [(mce_filter_scored minSum t).1],
       (h ++ [withReason minSum t]).length, diagOf minSum t) := by
    unfold mceHeap
    rw [ht]
  have ha : a < h.length := by
    rcases List.getElem?_eq_some.mp ht with ⟨h1, _⟩
    exact h1
  rw [hrun]
  have hkw := hfresh "Score_keywords(0-4)" (by decide)
  have hcl := hfresh "Score_client(0-3)" (by decide)
  have hamt := hfresh "Score_amount(0-2)" (by decide)
  have hpat := hfresh "Score_pattern(0-1)" (by decide)
  have htot := hfresh "Score_total(0-10)" (by decide)
  have hprio := hfresh "Priority" (by decide)
  have hreas := hfresh "Причина" (by decide)
  have e1 : (dKw t).headers = (prepDf t).headers ++ ["Score_keywords(0-4)"] := by
    unfold dKw
    rw [setCol_headers, setColHeaders_fresh hkw]
  have e2 : (dCl t).headers =
      ((prepDf t).headers ++ ["Score_keywords(0-4)"]) ++ ["Score_client(0-3)"] := by
    unfold dCl
    rw [setCol_headers, e1,
      setColHeaders_fresh (not_mem_append_singleton hcl (by decide))]
  have e3 : (dAmt t).headers =
      (((prepDf t).headers ++ ["Score_keywords(0-4)"]) ++ ["Score_client(0-3)"]) ++
        ["Score_amount(0-2)"] := by
    unfold dAmt
    rw [setCol_headers, e2,
      setColHeaders_fresh (not_mem_append_singleton
        (not_mem_append_singleton hamt (by decide)) (by decide))]
  have e4 : (dPat t).headers =
      ((((prepDf t).headers ++ ["Score_keywords(0-4)"]) ++ ["Score_client(0-3)"]) ++
        ["Score_amount(0-2)"]) ++ ["Score_pattern(0-1)"] := by
    unfold dPat
    rw [setCol_headers, e3,
      setColHeaders_fresh (not_mem_append_singleton (not_mem_append_singleton
        (not_mem_append_singleton hpat (by decide)) (by decide)) (by decide))]
  have e5 : (withScores t).headers =
      (((((prepDf t).headers ++ ["Score_keywords(0-4)"]) ++ ["Score_client(0-3)"]) ++
        ["Score_amount(0-2)"]) ++ ["Score_pattern(0-1)"]) ++ ["Score_total(0-10)"] := by
    unfold withScores
    rw [setCol_headers, e4,
      setColHeaders_fresh (not_mem_append_singleton (not_mem_append_singleton
        (not_mem_append_singleton (not_mem_append_singleton htot (by decide))
          (by decide)) (by decide)) (by decide))]
  have hOh : (outFiltered minSum t).headers = (withScores t).headers := rfl
  have e6 : (withPriority minSum t).headers =
      ((((((prepDf t).headers ++ ["Score_keywords(0-4)"]) ++ ["Score_client(0-3)"]) ++
        ["Score_amount(0-2)"]) ++ ["Score_pattern(0-1)"]) ++ ["Score_total(0-10)"]) ++
        ["Priority"] := by
    rw [withPriority_headers, hOh, e5,
      setColHeaders_fresh (not_mem_append_singleton (not_mem_append_singleton
        (not_mem_append_singleton (not_mem_append_singleton
          (not_mem_append_singleton hprio (by decide)) (by decide)) (by decide))
          (by decide)) (by decide))]
  have e7 : (withReason minSum t).headers =
      (((((((prepDf t).headers ++ ["Score_keywords(0-4)"]) ++ ["Score_client(0-3)"]) ++
        ["Score_amount(0-2)"]) ++ ["Score_pattern(0-1)"]) ++ ["Score_total(0-10)"]) ++
        ["Priority"]) ++ ["Причина"] := by
    rw [withReason_headers, e6,
      setColHeaders_fresh (not_mem_append_singleton (not_mem_append_singleton
        (not_mem_append_singleton (not_mem_append_singleton (not_mem_append_singleton
          (not_mem_append_singleton hreas (by decide)) (by decide)) (by decide))
          (by decide)) (by decide)) (by decide))]
  refine ⟨?_, ?_, rfl, ?_, rfl, rfl, rfl, ?_, ?_⟩
  · rw [List.getElem?_append_left (by simp; omega), List.getElem?_append_left ha, ht]
  · exact List.getElem?_concat_length _ _
  · have hfin : (mce_filter_scored minSum t).1.headers =
        (withReason minSum t).headers := rfl
    rw [hfin, e7]
    simp [List.append_assoc]
  · show (diagOf minSum t).total_in = t.rows.length
    unfold diagOf
    exact prepDf_rows_length t
  · show (diagOf minSum t).total_out = (mce_filter_scored minSum t).1.rows.length
    unfold diagOf
    show (withReason minSum t).rows.length = (sortedRowsOf minSum t).length
    unfold sortedRowsOf
    rw [List.length_mergeSort]

end SealedPipeline

/-- Claim C7, witness: the heap frame of a concrete one-row table is
unchanged by the call, and the output headers are the three prepared
columns followed by the seven appended ones. -/
theorem C7_no_mutation_witness :
    ((mceHeap 0 [⟨["Название", "Сумма"], [[.str "сикг", .num 1]]⟩] 0).1)[0]? =
      some ⟨["Название", "Сумма"], [[.str "сикг", .num 1]]⟩ ∧
    (mce_filter_scored 0 ⟨["Название", "Сумма"], [[.str "сикг", .num 1]]⟩).1.headers =
      (prepDf ⟨["Название", "Сумма"], [[.str "сикг", .num 1]]⟩).headers ++
        ["Score_keywords(0-4)", "Score_client(0-3)", "Score_amount(0-2)",
         "Score_pattern(0-1)", "Score_total(0-10)", "Priority", "Причина"] ∧
    (prepDf ⟨["Название", "Сумма"], [[.str "сикг", .num 1]]⟩).headers =
      ["Название", "Сумма", "Компания"] := by
  have h := C7_no_mutation 0 [⟨["Название", "Сумма"], [[.str "сикг", .num 1]]⟩] 0
    ⟨["Название", "Сумма"], [[.str "сикг", .num 1]]⟩ rfl (by decide)
  exact ⟨h.1, h.2.2.2.1, by decide⟩

/-- Claim C10, witness: the single surviving row of a concrete one-row
table (keyword "сикг", amount 1) has a positive sub-score and a
non-fallback explanation. -/
theorem C10_survivors_semantic_witness :
    ([Cell.str "сикг", .num 1, .str "", .num 1, .num 0, .num 0, .num 0, .num 1,
        .str "Low", .str "направления/ключевые слова"] ∈
      (mce_filter_scored 0 ⟨["Название", "Сумма"], [[.str "сикг", .num 1]]⟩).1.rows) ∧
    (0 < (toNumeric (rowVal
        (mce_filter_scored 0 ⟨["Название", "Сумма"], [[.str "сикг", .num 1]]⟩).1.headers
        [Cell.str "сикг", .num 1, .str "", .num 1, .num 0, .num 0, .num 0, .num 1,
          .str "Low", .str "направления/ключевые слова"]
        "Score_keywords(0-4)")).getD 0 ∨
     0 < (toNumeric (rowVal
        (mce_filter_scored 0 ⟨["Название", "Сумма"], [[.str "сикг", .num 1]]⟩).1.headers
        [Cell.str "сикг", .num 1, .str "", .num 1, .num 0, .num 0, .num 0, .num 1,
          .str "Low", .str "направления/ключевые слова"]
        "Score_client(0-3)")).getD 0 ∨
     0 < (toNumeric (rowVal
        (mce_filter_scored 0 ⟨["Название", "Сумма"], [[.str "сикг", .num 1]]⟩).1.headers
        [Cell.str "сикг", .num 1, .str "", .num 1, .num 0, .num 0, .num 0, .num 1,
          .str "Low", .str "направления/ключевые слова"]
        "Score_pattern(0-1)")).getD 0) ∧
    cellStr (rowVal
        (mce_filter_scored 0 ⟨["Название", "Сумма"], [[.str "сикг", .num 1]]⟩).1.headers
        [Cell.str "сикг", .num 1, .str "", .num 1, .num 0, .num 0, .num 0, .num 1,
          .str "Low", .str "направления/ключевые слова"]
        "Причина") ≠ "значимых совпадений нет" := by
  have hmem : [Cell.str "сикг", .num 1, .str "", .num 1, .num 0, .num 0, .num 0, .num 1,
      .str "Low", .str "направления/ключевые слова"] ∈
      (mce_filter_scored 0 ⟨["Название", "Сумма"], [[.str "сикг", .num 1]]⟩).1.rows := by
    show _ ∈ sortedRowsOf 0 ⟨["Название", "Сумма"], [[.str "сикг", .num 1]]⟩
    unfold sortedRowsOf
    rw [List.mem_mergeSort]
    decide
  exact ⟨hmem, C10_survivors_semantic 0 _ _ hmem⟩

/-- Claim C2, counterexample: the text "измерительная установка" contains
exactly two distinct configured keywords ("измеритель" and
"измерительная установка"), so the claimed sub-score is 2, but the source
counts the duplicated list entry "измерительная установка" twice and
returns 3. -/
theorem C2_counterexample :
    _score_keywords "измерительная установка" = 3 ∧
    distinctKeywordScore "измерительная установка" = 2 ∧
    _score_keywords "измерительная установка" ≠
      distinctKeywordScore "измерительная установка" := by
  refine ⟨by decide, by decide, by decide⟩

/-- Claim C2, amended: the keyword sub-score equals the number of entries
of the configured vocabulary list — counted with multiplicity, the list
containing "измерительная установка" twice — that occur as case-insensitive
substrings of the text, capped at 4. -/
theorem C2_amended (s : String) :
    _score_keywords s = min (KEYWORDS.countP (fun k => hasSub k (pyLower s))) 4 := by
  unfold _score_keywords
  dsimp only
  rw [min_def]
  split_ifs <;> omega

-- ========= claim C3 =========

/-- Claim C3: for every integer total score from 0 to 10 the _priority tiers
are a strict partition: High ⇔ total ≥ 7, Medium ⇔ 4 ≤ total < 7,
Low ⇔ total < 4. -/
theorem C3_priority_partition (n : ℕ) (h : n ≤ 10) :
    (_priority n = "High" ↔ 7 ≤ n) ∧
    (_priority n = "Medium" ↔ 4 ≤ n ∧ n < 7) ∧
    (_priority n = "Low" ↔ n < 4) := by
  have h7 : ((n : ℚ) ≥ 7) ↔ 7 ≤ n := by exact_mod_cast Iff.rfl
  have h4 : ((n : ℚ) ≥ 4) ↔ 4 ≤ n := by exact_mod_cast Iff.rfl
  unfold _priority
  split_ifs with h1 h2
  · rw [h7] at h1
    exact ⟨⟨fun _ => h1, fun _ => rfl⟩,
      ⟨fun hm => absurd hm (by decide), fun hc => absurd h1 (by omega)⟩,
      ⟨fun hl => absurd hl (by decide), fun hc => absurd h1 (by omega)⟩⟩
  · rw [h7] at h1; rw [h4] at h2
    exact ⟨⟨fun hm => absurd hm (by decide), fun hc => absurd h1 (by omega)⟩,
      ⟨fun _ => ⟨h2, by omega⟩, fun _ => rfl⟩,
      ⟨fun hl => absurd hl (by decide), fun hc => absurd h2 (by omega)⟩⟩
  · rw [h7] at h1; rw [h4] at h2
    exact ⟨⟨fun hm => absurd hm (by decide), fun hc => absurd h1 (by omega)⟩,
      ⟨fun hm => absurd hm (by decide), fun hc => absurd h2 (by omega)⟩,
      ⟨fun _ => by omega, fun _ => rfl⟩⟩

/-- Claim C3, witness: the partition theorem applied at totals 7, 4 and 3. -/
theorem C3_priority_partition_witness :
    _priority (7 : ℕ) = "High" ∧ _priority (4 : ℕ) = "Medium" ∧
    _priority (3 : ℕ) = "Low" :=
  ⟨(C3_priority_partition 7 (by omega)).1.mpr (by omega),
   (C3_priority_partition 4 (by omega)).2.1.mpr (by omega),
   (C3_priority_partition 3 (by omega)).2.2.mpr (by omega)⟩

-- ========= claim C4 =========

/-- Claim C4: the amount sub-score is 2 for parsed amounts at or above
300 000 000, 1 for amounts in [50 000 000, 300 000 000), 0 below, and 0
(rather than an error) for values that do not parse as numbers. -/
theorem C4_amount_score (a : Cell) :
    (∀ q : ℚ, toNumeric a = some q →
      (300000000 ≤ q → _score_amount a = 2) ∧
      (50000000 ≤ q → q < 300000000 → _score_amount a = 1) ∧
      (q < 50000000 → _score_amount a = 0)) ∧
    (toNumeric a = none → _score_amount a = 0) := by
  unfold _score_amount _score_amount_q
  constructor
  · intro q hq
    rw [hq]
    refine ⟨fun h2 => ?_, fun h1 h1' => ?_, fun h0 => ?_⟩ <;>
      simp only [Option.getD_some] <;> split_ifs <;> first | rfl | linarith
  · intro hn
    rw [hn]
    simp only [Option.getD_none]
    split_ifs <;> first | rfl | linarith

/-- Claim C4, witness: the amount theorem applied at a high amount, a
mid-range amount, a low amount, and an unparseable string. -/
theorem C4_amount_score_witness :
    _score_amount (.num 300000000) = 2 ∧ _score_amount (.num 50000000) = 1 ∧
    _score_amount (.num 49999999) = 0 ∧ _score_amount (.str "abc") = 0 :=
  ⟨((C4_amount_score (.num 300000000)).1 300000000 rfl).1 (by norm_num),
   ((C4_amount_score (.num 50000000)).1 50000000 rfl).2.1 (by norm_num) (by norm_num),
   ((C4_amount_score (.num 49999999)).1 49999999 rfl).2.2 (by norm_num),
   (C4_amount_score (.str "abc")).2 (by decide)⟩

-- ========= claim C8 =========

/-- Claim C8: keyword scoring is monotonic — if every configured keyword
occurring in the first name string also occurs in the second, the keyword
sub-score does not decrease, and neither does the total score with the
other three sub-scores held fixed. -/
theorem C8_keyword_monotone (s1 s2 : String)
    (h : ∀ k ∈ KEYWORDS, hasSub k (pyLower s1) = true → hasSub k (pyLower s2) = true) :
    _score_keywords s1 ≤ _score_keywords s2 ∧
    ∀ cl amt pat : ℕ,
      _score_keywords s1 + cl + amt + pat ≤ _score_keywords s2 + cl + amt + pat := by
  have hc : KEYWORDS.countP (fun k => hasSub k (pyLower s1)) ≤
      KEYWORDS.countP (fun k => hasSub k (pyLower s2)) :=
    List.countP_mono_left h
  have hmain : _score_keywords s1 ≤ _score_keywords s2 := by
    unfold _score_keywords
    dsimp only
    split_ifs <;> omega
  exact ⟨hmain, fun cl amt pat => by omega⟩

/-- Claim C8, witness: appending a second keyword occurrence to the name
"сикг" keeps every old keyword occurrence, and the scores indeed do not
decrease. -/
theorem C8_keyword_monotone_witness :
    _score_keywords "сикг" ≤ _score_keywords "сикг уун" ∧
    _score_keywords "сикг" + 3 + 2 + 1 ≤ _score_keywords "сикг уун" + 3 + 2 + 1 :=
  ⟨(C8_keyword_monotone "сикг" "сикг уун" (by decide)).1,
   (C8_keyword_monotone "сикг" "сикг уун" (by decide)).2 3 2 1⟩

-- ========= claim C9 =========

/-- Claim C9: a non-2xx response from the language-model endpoint is
returned to the caller as the formatted warning string containing the
status code and the response body, and any other local failure is returned
as the formatted local-error string; in both cases `call_openai` returns
normally rather than raising. -/
theorem C9_openai_errors (o : LMOutcome) :
    (∀ (status : ℕ) (text : String) (body : Except String String),
      o = .response status text body → ¬(200 ≤ status ∧ status < 300) →
      call_openai o = "⚠️ OpenAI " ++ toString status ++ ": " ++ text) ∧
    (∀ m : String, o = .transportError m →
      call_openai o = "⚠️ Локальная ошибка: " ++ m) := by
  constructor
  · intro status text body ho hs
    subst ho
    unfold call_openai
    simp [hs]
  · intro m ho
    subst ho
    rfl

/-- Claim C9, witness: a 404 response with body "Not Found" yields the
warning string, and a transport error yields the local-error string. -/
theorem C9_openai_errors_witness :
    call_openai (.response 404 "Not Found" (.ok "x")) = "⚠️ OpenAI 404: Not Found" ∧
    call_openai (.transportError "timeout") = "⚠️ Локальная ошибка: timeout" := by
  constructor
  · have := (C9_openai_errors (.response 404 "Not Found" (.ok "x"))).1
      404 "Not Found" (.ok "x") rfl (by omega)
    simpa using this
  · exact (C9_openai_errors (.transportError "timeout")).2 "timeout" rfl

